import Mathlib

/-!
Shallow embedding of extcap.c (Wireshark external capture glue code).

The embedding models the non-WIN32 (FIFO) build of the file: the pipe
factory uses create_tempfile, ws_unlink and mkfifo, and session cleanup
unlinks the fifo path.  External collaborators that are not part of the
source file (the sentence parser extcap_parser.c, glib spawning, the
directory scan, create_tempfile and mkfifo results) are passed in as
explicit oracle parameters, so every theorem quantifies over their
behaviour.  The command-line argument vectors handed to helpers are not
modelled: no claim depends on their contents, only on which helper
executable is invoked, which is recorded in a spawn trace.
-/

set_option linter.unusedVariables false

/-- Outcome of one g_spawn_sync invocation of a helper executable: whether
the spawn itself succeeded, the exit status of the child, and its standard
output. -/
structure SpawnResult where
  status : Bool
  exitStatus : Int
  output : String
deriving DecidableEq

/-- The global ifaces hash table: interface name mapped to the owning
extcap executable path.  Modelled as an association list; extcap_if_add
only ever inserts fresh keys, so lookup agrees with GHashTable. -/
abbrev Registry := List (String × String)

/-- g_hash_table_lookup on the ifaces table. -/
def g_hash_table_lookup : Registry → String → Option String
  | [], _ => none
  | (k, v) :: t, n => if k = n then some v else g_hash_table_lookup t n

/-- Lookup through the possibly unallocated (NULL) global table. -/
def registry_lookup (ifaces : Option Registry) (n : String) : Option String :=
  match ifaces with
  | none => none
  | some t => g_hash_table_lookup t n

/-- extcap_if_exists: non-NULL name, allocated table, table non-empty and
the name is present. -/
def extcap_if_exists (ifaces : Option Registry) (ifname : Option String) : Bool :=
  match ifname with
  | none => false
  | some n =>
    match ifaces with
    | none => false
    | some t =>
      if 0 < t.length then (g_hash_table_lookup t n).isSome else false

/-- extcap_if_exists_for_extcap: the name exists and its recorded owner is
exactly the given executable path. -/
def extcap_if_exists_for_extcap (ifaces : Option Registry) (ifname : Option String)
    (extcap : String) : Bool :=
  if extcap_if_exists ifaces ifname = true then
    match ifaces, ifname with
    | some t, some n =>
      match g_hash_table_lookup t n with
      | some entry => if entry = extcap then true else false
      | none => false
    | _, _ => false
  else false

/-- extcap_if_cleanup: allocate the table if it is NULL, then remove all
entries; in both cases the result is an allocated empty table. -/
def extcap_if_cleanup (ifaces : Option Registry) : Option Registry :=
  match ifaces with
  | none => some []
  | some _ => some []

/-- extcap_if_add: insert only if the name is not yet present, otherwise do
nothing (first registration wins). -/
def extcap_if_add (reg : Registry) (ifname extcap : String) : Registry :=
  match g_hash_table_lookup reg ifname with
  | none => (ifname, extcap) :: reg
  | some _ => reg

/-- State threaded through extcap_foreach: the global registry, the
callback data (the object behind the void pointer), and the trace of
executable paths passed to g_spawn_sync, in invocation order. -/
structure ForeachState (σ : Type) where
  ifaces : Option Registry
  data : σ
  spawned : List String
deriving DecidableEq

/-- The while loop of extcap_foreach over the directory entries.  For each
file: build the full path; skip it when a queried interface exists but is
not owned by this path; otherwise g_spawn_sync it (recorded in the trace)
and, when the spawn succeeded with exit status 0, run the callback, whose
boolean result is the keep_going flag. -/
def extcap_foreach_loop {σ : Type} (dirname : String) (spawn : String → SpawnResult)
    (cb : String → String → Option Registry → σ → Option Registry × σ × Bool)
    (ifname : Option String) : List String → ForeachState σ → ForeachState σ
  | [], st => st
  | file :: files, st =>
    if extcap_if_exists st.ifaces ifname = true ∧
        extcap_if_exists_for_extcap st.ifaces ifname (dirname ++ "/" ++ file) = false then
      extcap_foreach_loop dirname spawn cb ifname files st
    else if (spawn (dirname ++ "/" ++ file)).status = true ∧
        (spawn (dirname ++ "/" ++ file)).exitStatus = 0 then
      if (cb (dirname ++ "/" ++ file) (spawn (dirname ++ "/" ++ file)).output
          st.ifaces st.data).2.2 = true then
        extcap_foreach_loop dirname spawn cb ifname files
          ⟨(cb (dirname ++ "/" ++ file) (spawn (dirname ++ "/" ++ file)).output
              st.ifaces st.data).1,
           (cb (dirname ++ "/" ++ file) (spawn (dirname ++ "/" ++ file)).output
              st.ifaces st.data).2.1,
           st.spawned ++ [dirname ++ "/" ++ file]⟩
      else
        ⟨(cb (dirname ++ "/" ++ file) (spawn (dirname ++ "/" ++ file)).output
            st.ifaces st.data).1,
         (cb (dirname ++ "/" ++ file) (spawn (dirname ++ "/" ++ file)).output
            st.ifaces st.data).2.1,
         st.spawned ++ [dirname ++ "/" ++ file]⟩
    else
      extcap_foreach_loop dirname spawn cb ifname files
        ⟨st.ifaces, st.data, st.spawned ++ [dirname ++ "/" ++ file]⟩

/-- extcap_foreach: when g_dir_open fails (dirOpen is none) nothing runs;
otherwise iterate the loop over the directory entries. -/
def extcap_foreach {σ : Type} (dirOpen : Option (List String)) (dirname : String)
    (spawn : String → SpawnResult)
    (cb : String → String → Option Registry → σ → Option Registry × σ × Bool)
    (ifname : Option String) (ifaces : Option Registry) (s : σ) : ForeachState σ :=
  match dirOpen with
  | none => ⟨ifaces, s, []⟩
  | some files => extcap_foreach_loop dirname spawn cb ifname files ⟨ifaces, s, []⟩

/-- One interface sentence as produced by extcap_parse_interfaces. -/
structure ExtcapInterface where
  call : String
  display : String
deriving DecidableEq

/-- Interface type tag of an if_info record or a session entry. -/
inductive IfType
  | extcap
  | native
deriving DecidableEq

/-- An if_info_t record produced by discovery. -/
structure IfInfo where
  name : String
  friendly_name : String
  if_type : IfType
  extcap : String
deriving DecidableEq

/-- Inner loop of interfaces_cb over the parsed interface sentences: an
already present name is skipped (no record appended, registry untouched);
otherwise the record is appended and the name registered to this path. -/
def interfaces_cb_go (extcap : String) :
    List ExtcapInterface → Registry → List IfInfo → Registry × List IfInfo
  | [], reg, il => (reg, il)
  | i :: rest, reg, il =>
    if extcap_if_exists (some reg) (some i.call) = true then
      interfaces_cb_go extcap rest reg il
    else
      interfaces_cb_go extcap rest (extcap_if_add reg i.call extcap)
        (il ++ [⟨i.call, i.display, IfType.extcap, extcap⟩])

/-- interfaces_cb.  extcap_interface_list allocates the table through
extcap_if_cleanup before any callback runs, so the registry is never the
NULL table when this callback executes; getD covers the match.  Returns
TRUE, so discovery keeps iterating. -/
def interfaces_cb (parse : String → List ExtcapInterface) (extcap output : String)
    (reg : Option Registry) (il : List IfInfo) : Option Registry × List IfInfo × Bool :=
  (some (interfaces_cb_go extcap (parse output) (reg.getD []) il).1,
   (interfaces_cb_go extcap (parse output) (reg.getD []) il).2, true)

/-- Result of extcap_interface_list: the if_info records, the global
registry afterwards, the caller visible err string, and the spawn trace. -/
structure DiscoveryResult where
  records : List IfInfo
  registry : Option Registry
  err : Option (Option String)
  spawned : List String
deriving DecidableEq

/-- extcap_interface_list: clear the registry, then run the discovery
callback over every directory entry.  The err string slot, when provided
by the caller, is set to NULL and never written afterwards. -/
def extcap_interface_list (dirOpen : Option (List String)) (dirname : String)
    (spawn : String → SpawnResult) (parse : String → List ExtcapInterface)
    (err0 : Option (Option String)) (ifaces0 : Option Registry) : DiscoveryResult :=
  let st := extcap_foreach dirOpen dirname spawn (interfaces_cb parse) none
    (extcap_if_cleanup ifaces0) ([] : List IfInfo)
  ⟨st.data, st.ifaces, err0.map (fun _ => none), st.spawned⟩

/-- One DLT sentence as produced by extcap_parse_dlts. -/
structure ExtcapDlt where
  number : Int
  name : String
  display : String
deriving DecidableEq

/-- A data_link_info_t record. -/
structure DataLinkInfo where
  dlt : Int
  name : String
  description : String
deriving DecidableEq

/-- An if_capabilities_t record; can_set_rfmon is always FALSE here. -/
structure IfCapabilities where
  can_set_rfmon : Bool
  data_link_types : List DataLinkInfo
deriving DecidableEq

/-- Callback data of the DLT query: the caps out parameter of
extcap_get_if_dlts, and the caller err string slot (outer none models a
NULL err_str pointer, the inner option is the string it points to). -/
structure DltState where
  caps : Option IfCapabilities
  err : Option (Option String)
deriving DecidableEq

/-- dlt_cb: build the link type list from the parsed sentences.  The data
pointer is the address of the caps variable of extcap_get_if_dlts and is
never NULL, so the guard reduces to the list being non-empty.  With an
empty list the err slot, when present, receives a descriptive message and
caps stays untouched.  Always returns FALSE, stopping the iteration. -/
def dlt_cb (parseDlts : String → List ExtcapDlt) (extcap output : String)
    (reg : Option Registry) (s : DltState) : Option Registry × DltState × Bool :=
  if parseDlts output = [] then
    (reg, ⟨s.caps, s.err.map (fun _ => some "Extcap returned no DLTs")⟩, false)
  else
    (reg, ⟨some ⟨false, (parseDlts output).map (fun d => ⟨d.number, d.name, d.display⟩)⟩,
      s.err⟩, false)

/-- Result of extcap_get_if_dlts: the returned caps pointer, the caller
err string slot, and the spawn trace. -/
structure DltQueryResult where
  caps : Option IfCapabilities
  err : Option (Option String)
  spawned : List String
deriving DecidableEq

/-- extcap_get_if_dlts.  If both ifname and err_str are non-NULL the err
slot is cleared; when the interface is registered the foreach runs with
dlt_cb, otherwise NULL is returned at once with no spawn. -/
def extcap_get_if_dlts (dirOpen : Option (List String)) (dirname : String)
    (spawn : String → SpawnResult) (parseDlts : String → List ExtcapDlt)
    (ifname : Option String) (err0 : Option (Option String))
    (ifaces : Option Registry) : DltQueryResult :=
  let err1 : Option (Option String) :=
    match ifname, err0 with
    | some _, some _ => some none
    | _, _ => err0
  if extcap_if_exists ifaces ifname = true then
    let st := extcap_foreach dirOpen dirname spawn (dlt_cb parseDlts) ifname ifaces
      (⟨none, err1.map (fun _ => none)⟩ : DltState)
    ⟨st.data.caps, st.data.err, st.spawned⟩
  else
    ⟨none, err1, []⟩

/-- search_cb: append the parsed argument list (possibly the empty list,
when the output was unparsable or empty) to the result; returns TRUE, so
the iteration keeps going.  The argument records themselves are opaque
values of the external parser, hence the type parameter. -/
def search_cb {α : Type} (parseArgs : String → List α) (extcap output : String)
    (reg : Option Registry) (il : List (List α)) : Option Registry × List (List α) × Bool :=
  (reg, il ++ [parseArgs output], true)

/-- Result of extcap_get_if_configuration: the returned list and the spawn
trace.  The C signature returns only the GList pointer; there is no error
out parameter. -/
structure ConfigQueryResult (α : Type) where
  ret : List (List α)
  spawned : List String
deriving DecidableEq

/-- extcap_get_if_configuration: when the interface is registered the
foreach runs with search_cb, otherwise the empty list is returned at once
with no spawn.  The local err_str variable of the C function is the NULL
pointer and is never observable, so it is not modelled. -/
def extcap_get_if_configuration {α : Type} (dirOpen : Option (List String)) (dirname : String)
    (spawn : String → SpawnResult) (parseArgs : String → List α)
    (ifname : Option String) (ifaces : Option Registry) : ConfigQueryResult α :=
  if extcap_if_exists ifaces ifname = true then
    let st := extcap_foreach dirOpen dirname spawn (search_cb parseArgs) ifname ifaces
      ([] : List (List α))
    ⟨st.data, st.spawned⟩
  else
    ⟨[], []⟩

/-- Formalisation of the failure indication claimed for the configuration
query.  The C signature of extcap_get_if_configuration returns only the
GList pointer and has no error out parameter (its local err_str variable
is the NULL pointer), so the only result distinguishable as an empty or
error result, and the one an unregistered name produces, is the empty
list. -/
def config_query_error_indication {α : Type} (r : ConfigQueryResult α) : Prop :=
  r.ret = []

/-- A session entry (interface_options): type tag, interface name, owning
helper path, fifo path, process identifier ((GPid)-1 is the invalid
sentinel) and the extra operator supplied arguments. -/
structure InterfaceOptions where
  if_type : IfType
  name : String
  extcap : String
  extcap_fifo : Option String
  extcap_pid : Int
  extcap_args : List (String × String)
deriving DecidableEq

/-- Environment of one extcap_create_pipe call on the FIFO platform: the
create_tempfile result (the code treats file descriptor 0 as failure) and
whether mkfifo succeeds at the produced name. -/
structure PipeEnv where
  tempfileFd : Int
  tempfileName : String
  mkfifoOk : Bool
deriving DecidableEq

/-- Visible outcome of extcap_create_pipe: its gboolean return value and
the value written through the fifo out parameter (none when the out
parameter was left untouched). -/
structure PipeOutcome where
  ok : Bool
  fifo : Option String
deriving DecidableEq

/-- extcap_create_pipe, FIFO branch: fail when create_tempfile returned 0;
otherwise close and unlink the temp file and call mkfifo.  Only a
successful mkfifo writes the out parameter, but the function returns TRUE
whether or not mkfifo succeeded. -/
def extcap_create_pipe (e : PipeEnv) : PipeOutcome :=
  if e.tempfileFd = 0 then ⟨false, none⟩
  else if e.mkfifoOk = true then ⟨true, some e.tempfileName⟩
  else ⟨true, none⟩

/-- Create a path on the modelled filesystem. -/
def fsAdd (p : String) (fs : List String) : List String :=
  if p ∈ fs then fs else fs ++ [p]

/-- Unlink a path from the modelled filesystem. -/
def fsRemove (p : String) (fs : List String) : List String :=
  fs.filter (fun q => q ≠ p)

/-- Filesystem effect of the same extcap_create_pipe call: create_tempfile
creates the temp file, ws_unlink removes it when file_exists says it is
there, and a successful mkfifo creates the fifo at that path. -/
def extcap_create_pipe_fs (e : PipeEnv) (fs : List String) : List String :=
  if e.tempfileFd = 0 then fs
  else
    let fs1 := fsAdd e.tempfileName fs
    let fs2 := if e.tempfileName ∈ fs1 then fsRemove e.tempfileName fs1 else fs1
    if e.mkfifoOk = true then fsAdd e.tempfileName fs2 else fs2

/-- Result of extcaps_init_initerfaces: its gboolean return value, the
session entry array afterwards, and the filesystem afterwards. -/
structure InitResult where
  ok : Bool
  entries : List InterfaceOptions
  fs : List String
deriving DecidableEq

/-- Loop of extcaps_init_initerfaces.  Native entries are skipped
unchanged.  For an extcap entry the k numbered extcap_create_pipe call is
made; a FALSE return aborts the whole call immediately, with the current
and all later entries left untouched.  On TRUE the local copy gets the
fifo (only if the out parameter was written) and the pid of the
asynchronous spawn, and is written back into the array. -/
def extcaps_init_go (pipeEnv : Nat → PipeEnv) (spawnPid : Nat → Int) :
    List InterfaceOptions → Nat → List InterfaceOptions → List String → InitResult
  | [], _, acc, fs => ⟨true, acc, fs⟩
  | e :: rest, k, acc, fs =>
    if e.if_type = IfType.extcap then
      if (extcap_create_pipe (pipeEnv k)).ok = true then
        extcaps_init_go pipeEnv spawnPid rest (k + 1)
          (acc ++ [{ e with
              extcap_fifo := match (extcap_create_pipe (pipeEnv k)).fifo with
                | some p => some p
                | none => e.extcap_fifo,
              extcap_pid := spawnPid k }])
          (extcap_create_pipe_fs (pipeEnv k) fs)
      else
        ⟨false, acc ++ e :: rest, extcap_create_pipe_fs (pipeEnv k) fs⟩
    else
      extcaps_init_go pipeEnv spawnPid rest k (acc ++ [e]) fs

/-- extcaps_init_initerfaces over a session array and a filesystem. -/
def extcaps_init_initerfaces (pipeEnv : Nat → PipeEnv) (spawnPid : Nat → Int)
    (entries : List InterfaceOptions) (fs : List String) : InitResult :=
  extcaps_init_go pipeEnv spawnPid entries 0 [] fs

/-- Number of helper backed entries in a session array slice; this is how
many extcap_create_pipe calls a successful pass over the slice makes. -/
def extcap_entry_count : List InterfaceOptions → Nat
  | [] => 0
  | e :: rest =>
    if e.if_type = IfType.extcap then extcap_entry_count rest + 1
    else extcap_entry_count rest

/-- Loop of extcap_cleanup over the session entries (FIFO platform),
accumulating the filesystem state and the pids whose handles were passed
to g_spawn_close_pid.  Native entries are skipped.  For an extcap entry
the fifo is unlinked when present on disk, and the handle of a pid other
than (GPid)-1 is released. -/
def extcap_cleanup_go : List InterfaceOptions → List String → List Int → List String × List Int
  | [], fs, rel => (fs, rel)
  | e :: rest, fs, rel =>
    if e.if_type = IfType.extcap then
      extcap_cleanup_go rest
        (match e.extcap_fifo with
         | some p => if p ∈ fs then fsRemove p fs else fs
         | none => fs)
        (if e.extcap_pid ≠ -1 then rel ++ [e.extcap_pid] else rel)
    else
      extcap_cleanup_go rest fs rel

/-- Result of extcap_cleanup: the session entries afterwards, the
filesystem afterwards, and the released pids in order. -/
structure CleanupResult where
  entries : List InterfaceOptions
  fs : List String
  released : List Int
deriving DecidableEq

/-- extcap_cleanup.  In the C source each iteration reads the entry with
g_array_index into a local interface_options variable, which copies the
struct by value; the assignments clearing extcap_fifo and setting
extcap_pid to (GPid)-1 hit only that local copy and are never written back
into capture_opts->ifaces (unlike extcaps_init_initerfaces, which writes
its copy back with g_array_remove_index and g_array_insert_val).  The
entry array is therefore returned exactly as given. -/
def extcap_cleanup (entries : List InterfaceOptions) (fs : List String) : CleanupResult :=
  ⟨entries, (extcap_cleanup_go entries fs []).1, (extcap_cleanup_go entries fs []).2⟩

/-! Helper lemmas about the registry and the foreach loop. -/

lemma extcap_path_inj {dn f1 f2 : String} (h : dn ++ "/" ++ f1 = dn ++ "/" ++ f2) :
    f1 = f2 := by
  apply String.ext
  have h2 := congrArg String.data h
  simp only [String.data_append] at h2
  exact List.append_cancel_left h2

lemma g_hash_table_lookup_mem {reg : Registry} {n p : String}
    (h : g_hash_table_lookup reg n = some p) : (n, p) ∈ reg := by
  induction reg with
  | nil => simp [g_hash_table_lookup] at h
  | cons kv t ih =>
    obtain ⟨k, v⟩ := kv
    by_cases hk : k = n
    · subst hk
      simp [g_hash_table_lookup] at h
      subst h
      exact List.mem_cons_self _ _
    · rw [g_hash_table_lookup, if_neg hk] at h
      exact List.mem_cons_of_mem _ (ih h)

lemma g_hash_table_lookup_len {reg : Registry} {n p : String}
    (h : g_hash_table_lookup reg n = some p) : 0 < reg.length := by
  cases reg with
  | nil => simp [g_hash_table_lookup] at h
  | cons a t => simp

lemma extcap_if_exists_of_lookup {reg : Registry} {n p : String}
    (h : g_hash_table_lookup reg n = some p) :
    extcap_if_exists (some reg) (some n) = true := by
  simp [extcap_if_exists, g_hash_table_lookup_len h, h]

lemma extcap_if_exists_for_extcap_eq {reg : Registry} {n p : String} (x : String)
    (h : g_hash_table_lookup reg n = some p) :
    extcap_if_exists_for_extcap (some reg) (some n) x = (if p = x then true else false) := by
  simp [extcap_if_exists_for_extcap, extcap_if_exists_of_lookup h, h]

lemma extcap_foreach_loop_skip_all {σ : Type} {dn : String} {sp : String → SpawnResult}
    {cb : String → String → Option Registry → σ → Option Registry × σ × Bool}
    {ifn : Option String} {fs : List String} {st : ForeachState σ}
    (hex : extcap_if_exists st.ifaces ifn = true)
    (hsk : ∀ f ∈ fs, extcap_if_exists_for_extcap st.ifaces ifn (dn ++ "/" ++ f) = false) :
    extcap_foreach_loop dn sp cb ifn fs st = st := by
  induction fs with
  | nil => rfl
  | cons f fs ih =>
    rw [extcap_foreach_loop, if_pos ⟨hex, hsk f (List.mem_cons_self f fs)⟩]
    exact ih (fun g hg => hsk g (List.mem_cons_of_mem f hg))

lemma extcap_foreach_loop_skip_pre {σ : Type} {dn : String} {sp : String → SpawnResult}
    {cb : String → String → Option Registry → σ → Option Registry × σ × Bool}
    {ifn : Option String} (pre rest : List String) (st : ForeachState σ)
    (hex : extcap_if_exists st.ifaces ifn = true)
    (hsk : ∀ f ∈ pre, extcap_if_exists_for_extcap st.ifaces ifn (dn ++ "/" ++ f) = false) :
    extcap_foreach_loop dn sp cb ifn (pre ++ rest) st =
      extcap_foreach_loop dn sp cb ifn rest st := by
  induction pre with
  | nil => rfl
  | cons f fs ih =>
    rw [List.cons_append, extcap_foreach_loop, if_pos ⟨hex, hsk f (List.mem_cons_self f fs)⟩]
    exact ih (fun g hg => hsk g (List.mem_cons_of_mem f hg))

lemma extcap_foreach_loop_shift {σ : Type} {dn : String} {sp : String → SpawnResult}
    {cb : String → String → Option Registry → σ → Option Registry × σ × Bool}
    {ifn : Option String} (fs : List String) :
    ∀ (reg : Option Registry) (s : σ) (t : List String),
      extcap_foreach_loop dn sp cb ifn fs ⟨reg, s, t⟩ =
        ⟨(extcap_foreach_loop dn sp cb ifn fs ⟨reg, s, []⟩).ifaces,
         (extcap_foreach_loop dn sp cb ifn fs ⟨reg, s, []⟩).data,
         t ++ (extcap_foreach_loop dn sp cb ifn fs ⟨reg, s, []⟩).spawned⟩ := by
  induction fs with
  | nil => intro reg s t; simp [extcap_foreach_loop]
  | cons f fs ih =>
    intro reg s t
    simp only [extcap_foreach_loop]
    by_cases h1 : extcap_if_exists reg ifn = true ∧
        extcap_if_exists_for_extcap reg ifn (dn ++ "/" ++ f) = false
    · rw [if_pos h1, if_pos h1]
      exact ih reg s t
    · rw [if_neg h1, if_neg h1]
      by_cases h2 : (sp (dn ++ "/" ++ f)).status = true ∧
          (sp (dn ++ "/" ++ f)).exitStatus = 0
      · rw [if_pos h2, if_pos h2]
        by_cases h3 : (cb (dn ++ "/" ++ f) (sp (dn ++ "/" ++ f)).output reg s).2.2 = true
        · rw [if_pos h3, if_pos h3]
          rw [ih _ _ (t ++ [dn ++ "/" ++ f]), ih _ _ ([] ++ [dn ++ "/" ++ f])]
          simp
        · rw [if_neg h3, if_neg h3]
          simp
      · rw [if_neg h2, if_neg h2]
        rw [ih _ _ (t ++ [dn ++ "/" ++ f]), ih _ _ ([] ++ [dn ++ "/" ++ f])]
        simp

lemma extcap_foreach_loop_query_run {σ : Type} {dn : String} {sp : String → SpawnResult}
    {cb : String → String → Option Registry → σ → Option Registry × σ × Bool}
    {reg : Registry} {name owner : String} (pre post : List String) (f0 : String)
    (hcb : ∀ ec out r s, (cb ec out r s).1 = r)
    (hlk : g_hash_table_lookup reg name = some owner)
    (hpre : ∀ f ∈ pre, dn ++ "/" ++ f ≠ owner)
    (hf0 : dn ++ "/" ++ f0 = owner)
    (hpost : ∀ f ∈ post, dn ++ "/" ++ f ≠ owner)
    (s : σ) (t : List String) :
    extcap_foreach_loop dn sp cb (some name) (pre ++ f0 :: post) ⟨some reg, s, t⟩ =
      if (sp owner).status = true ∧ (sp owner).exitStatus = 0 then
        ⟨some reg, (cb owner (sp owner).output (some reg) s).2.1, t ++ [owner]⟩
      else
        ⟨some reg, s, t ++ [owner]⟩ := by
  have hex : extcap_if_exists (some reg) (some name) = true := extcap_if_exists_of_lookup hlk
  have hskpre : ∀ f ∈ pre,
      extcap_if_exists_for_extcap (some reg) (some name) (dn ++ "/" ++ f) = false := by
    intro f hf
    rw [extcap_if_exists_for_extcap_eq _ hlk, if_neg (fun hh => hpre f hf hh.symm)]
  have hskpost : ∀ f ∈ post,
      extcap_if_exists_for_extcap (some reg) (some name) (dn ++ "/" ++ f) = false := by
    intro f hf
    rw [extcap_if_exists_for_extcap_eq _ hlk, if_neg (fun hh => hpost f hf hh.symm)]
  have hown : extcap_if_exists_for_extcap (some reg) (some name) (dn ++ "/" ++ f0) = true := by
    rw [extcap_if_exists_for_extcap_eq _ hlk, if_pos hf0.symm]
  rw [extcap_foreach_loop_skip_pre pre (f0 :: post) _ hex hskpre]
  simp only [extcap_foreach_loop]
  rw [if_neg (by simp [hown])]
  rw [hf0]
  by_cases hs : (sp owner).status = true ∧ (sp owner).exitStatus = 0
  · rw [if_pos hs, if_pos hs]
    by_cases hk : (cb owner (sp owner).output (some reg) s).2.2 = true
    · rw [if_pos hk, hcb]
      exact extcap_foreach_loop_skip_all hex hskpost
    · rw [if_neg hk, hcb]
  · rw [if_neg hs, if_neg hs]
    exact extcap_foreach_loop_skip_all hex hskpost

lemma extcap_if_add_lookup_preserve {reg : Registry} {n p : String} (c ec : String)
    (h : g_hash_table_lookup reg n = some p) :
    g_hash_table_lookup (extcap_if_add reg c ec) n = some p := by
  rw [extcap_if_add]
  cases hc : g_hash_table_lookup reg c with
  | some q => exact h
  | none =>
    rw [g_hash_table_lookup, if_neg]
    · exact h
    · intro e
      rw [e, h] at hc
      exact Option.noConfusion hc

lemma interfaces_cb_go_lookup_preserve (ec : String) (ints : List ExtcapInterface) :
    ∀ (reg : Registry) (il : List IfInfo) {n p : String},
      g_hash_table_lookup reg n = some p →
      g_hash_table_lookup (interfaces_cb_go ec ints reg il).1 n = some p := by
  induction ints with
  | nil => intro reg il n p h; exact h
  | cons i rest ih =>
    intro reg il n p h
    rw [interfaces_cb_go]
    by_cases hc : extcap_if_exists (some reg) (some i.call) = true
    · rw [if_pos hc]
      exact ih _ _ h
    · rw [if_neg hc]
      exact ih _ _ (extcap_if_add_lookup_preserve _ _ h)

lemma interfaces_cb_go_mem (ec : String) (ints : List ExtcapInterface) :
    ∀ (reg : Registry) (il : List IfInfo) {n p : String},
      (n, p) ∈ (interfaces_cb_go ec ints reg il).1 → (n, p) ∈ reg ∨ p = ec := by
  induction ints with
  | nil => intro reg il n p h; exact Or.inl h
  | cons i rest ih =>
    intro reg il n p h
    rw [interfaces_cb_go] at h
    by_cases hc : extcap_if_exists (some reg) (some i.call) = true
    · rw [if_pos hc] at h
      exact ih _ _ h
    · rw [if_neg hc] at h
      rcases ih _ _ h with hm | he
      · rw [extcap_if_add] at hm
        revert hm
        cases hg : g_hash_table_lookup reg i.call with
        | some q => exact fun hm => Or.inl hm
        | none =>
          intro hm
          rcases List.mem_cons.mp hm with he2 | hm2
          · exact Or.inr (congrArg Prod.snd he2)
          · exact Or.inl hm2
      · exact Or.inr he

lemma discovery_loop_reg_mem {dn : String} {sp : String → SpawnResult}
    {pi : String → List ExtcapInterface} (fs : List String) :
    ∀ (reg : Registry) (il : List IfInfo) (t : List String) {n p : String},
      (n, p) ∈ ((extcap_foreach_loop dn sp (interfaces_cb pi) none fs
          ⟨some reg, il, t⟩).ifaces).getD [] →
      (n, p) ∈ reg ∨ ∃ f ∈ fs, p = dn ++ "/" ++ f := by
  induction fs with
  | nil =>
    intro reg il t n p h
    exact Or.inl (by simpa [extcap_foreach_loop] using h)
  | cons f rest ih =>
    intro reg il t n p h
    simp only [extcap_foreach_loop, interfaces_cb] at h
    rw [if_neg (by simp [extcap_if_exists])] at h
    by_cases hs : (sp (dn ++ "/" ++ f)).status = true ∧
        (sp (dn ++ "/" ++ f)).exitStatus = 0
    · rw [if_pos hs, if_pos trivial] at h
      rcases ih _ _ _ h with hm | ⟨g, hg, hp⟩
      · rcases interfaces_cb_go_mem _ _ _ _ hm with hm2 | he
        · exact Or.inl hm2
        · exact Or.inr ⟨f, List.mem_cons_self f rest, he⟩
      · exact Or.inr ⟨g, List.mem_cons_of_mem f hg, hp⟩
    · rw [if_neg hs] at h
      rcases ih _ _ _ h with hm | ⟨g, hg, hp⟩
      · exact Or.inl hm
      · exact Or.inr ⟨g, List.mem_cons_of_mem f hg, hp⟩

lemma discovery_loop_lookup_preserve {dn : String} {sp : String → SpawnResult}
    {pi : String → List ExtcapInterface} (fs : List String) :
    ∀ (reg : Registry) (il : List IfInfo) (t : List String) {n p : String},
      g_hash_table_lookup reg n = some p →
      registry_lookup (extcap_foreach_loop dn sp (interfaces_cb pi) none fs
          ⟨some reg, il, t⟩).ifaces n = some p := by
  induction fs with
  | nil =>
    intro reg il t n p h
    simpa [extcap_foreach_loop, registry_lookup] using h
  | cons f rest ih =>
    intro reg il t n p h
    simp only [extcap_foreach_loop, interfaces_cb]
    rw [if_neg (by simp [extcap_if_exists])]
    by_cases hs : (sp (dn ++ "/" ++ f)).status = true ∧
        (sp (dn ++ "/" ++ f)).exitStatus = 0
    · rw [if_pos hs, if_pos trivial]
      exact ih _ _ _ (interfaces_cb_go_lookup_preserve _ _ _ _ h)
    · rw [if_neg hs]
      exact ih _ _ _ h

/-! Helper lemmas about session initialization and cleanup. -/

lemma extcap_create_pipe_fail_fs {env : PipeEnv}
    (h : (extcap_create_pipe env).ok = false) :
    ∀ fs, extcap_create_pipe_fs env fs = fs := by
  intro fs
  rw [extcap_create_pipe] at h
  by_cases hf : env.tempfileFd = 0
  · rw [extcap_create_pipe_fs, if_pos hf]
  · rw [if_neg hf] at h
    by_cases hm : env.mkfifoOk = true
    · rw [if_pos hm] at h
      exact absurd h (by simp)
    · rw [if_neg hm] at h
      exact absurd h (by simp)

lemma extcaps_init_go_fail (pipeEnv : Nat → PipeEnv) (spawnPid : Nat → Int)
    (e : InterfaceOptions) (post : List InterfaceOptions)
    (he : e.if_type = IfType.extcap) (pre : List InterfaceOptions) :
    ∀ (k : Nat) (acc : List InterfaceOptions) (fs : List String),
      (∀ j, j < extcap_entry_count pre →
        (extcap_create_pipe (pipeEnv (k + j))).ok = true) →
      (extcap_create_pipe (pipeEnv (k + extcap_entry_count pre))).ok = false →
      extcaps_init_go pipeEnv spawnPid (pre ++ e :: post) k acc fs =
        ⟨false, (extcaps_init_go pipeEnv spawnPid pre k acc fs).entries ++ e :: post,
          (extcaps_init_go pipeEnv spawnPid pre k acc fs).fs⟩ ∧
      (extcaps_init_go pipeEnv spawnPid pre k acc fs).ok = true := by
  induction pre with
  | nil =>
    intro k acc fs hok hfail
    rw [extcap_entry_count, Nat.add_zero] at hfail
    have hne : ¬ (extcap_create_pipe (pipeEnv k)).ok = true := by
      rw [hfail]; exact Bool.false_ne_true
    constructor
    · simp only [List.nil_append, extcaps_init_go]
      rw [if_pos he, if_neg hne, extcap_create_pipe_fail_fs hfail]
    · rfl
  | cons x xs ih =>
    intro k acc fs hok hfail
    by_cases hx : x.if_type = IfType.extcap
    · have h0 : (extcap_create_pipe (pipeEnv k)).ok = true := by
        have := hok 0 (by rw [extcap_entry_count, if_pos hx]; omega)
        rwa [Nat.add_zero] at this
      have hcount : extcap_entry_count (x :: xs) = extcap_entry_count xs + 1 := by
        rw [extcap_entry_count, if_pos hx]
      have hok2 : ∀ j, j < extcap_entry_count xs →
          (extcap_create_pipe (pipeEnv (k + 1 + j))).ok = true := by
        intro j hj
        have hcj := hok (j + 1) (by omega)
        rwa [show k + (j + 1) = k + 1 + j by omega] at hcj
      have hfail2 : (extcap_create_pipe (pipeEnv (k + 1 + extcap_entry_count xs))).ok
          = false := by
        rw [hcount] at hfail
        rwa [show k + (extcap_entry_count xs + 1) = k + 1 + extcap_entry_count xs
          by omega] at hfail
      rw [List.cons_append]
      simp only [extcaps_init_go]
      rw [if_pos hx, if_pos h0, if_pos hx, if_pos h0]
      exact ih (k + 1) _ _ hok2 hfail2
    · have hcount : extcap_entry_count (x :: xs) = extcap_entry_count xs := by
        rw [extcap_entry_count, if_neg hx]
      rw [hcount] at hfail
      rw [List.cons_append]
      simp only [extcaps_init_go]
      rw [if_neg hx, if_neg hx]
      exact ih k _ _ (fun j hj => hok j (by rw [hcount]; exact hj)) hfail

lemma extcap_cleanup_go_fs_subset (entries : List InterfaceOptions) :
    ∀ (fs : List String) (rel : List Int) {p : String},
      p ∈ (extcap_cleanup_go entries fs rel).1 → p ∈ fs := by
  induction entries with
  | nil => intro fs rel p h; exact h
  | cons e rest ih =>
    intro fs rel p h
    rw [extcap_cleanup_go] at h
    by_cases ht : e.if_type = IfType.extcap
    · rw [if_pos ht] at h
      have h2 := ih _ _ h
      revert h2
      cases e.extcap_fifo with
      | none => exact fun h2 => h2
      | some q =>
        show p ∈ (if q ∈ fs then fsRemove q fs else fs) → p ∈ fs
        by_cases hq : q ∈ fs
        · rw [if_pos hq]
          exact fun h2 => List.mem_of_mem_filter h2
        · rw [if_neg hq]
          exact fun h2 => h2
    · rw [if_neg ht] at h
      exact ih _ _ h

lemma extcap_cleanup_go_fifo_removed (entries : List InterfaceOptions) :
    ∀ (fs : List String) (rel : List Int) {e : InterfaceOptions},
      e ∈ entries → e.if_type = IfType.extcap → ∀ {p : String}, e.extcap_fifo = some p →
      p ∉ (extcap_cleanup_go entries fs rel).1 := by
  induction entries with
  | nil => intro fs rel e he; exact absurd he (List.not_mem_nil e)
  | cons x rest ih =>
    intro fs rel e he ht p hp
    rw [extcap_cleanup_go]
    rcases List.mem_cons.mp he with rfl | hm
    · rw [if_pos ht]
      intro hmem
      have h2 := extcap_cleanup_go_fs_subset rest _ _ hmem
      have hfs1 : (match e.extcap_fifo with
          | some q => if q ∈ fs then fsRemove q fs else fs
          | none => fs) = if p ∈ fs then fsRemove p fs else fs := by rw [hp]
      rw [hfs1] at h2
      by_cases hq : p ∈ fs
      · rw [if_pos hq] at h2
        simp [fsRemove] at h2
      · rw [if_neg hq] at h2
        exact hq h2
    · by_cases hx : x.if_type = IfType.extcap
      · rw [if_pos hx]
        exact ih _ _ hm ht hp
      · rw [if_neg hx]
        exact ih _ _ hm ht hp

lemma extcap_cleanup_go_fs_fixed (entries : List InterfaceOptions) :
    ∀ (fs : List String) (rel : List Int),
      (∀ e ∈ entries, e.if_type = IfType.extcap →
        ∀ p, e.extcap_fifo = some p → p ∉ fs) →
      (extcap_cleanup_go entries fs rel).1 = fs := by
  induction entries with
  | nil => intro fs rel h; rfl
  | cons x rest ih =>
    intro fs rel h
    rw [extcap_cleanup_go]
    by_cases hx : x.if_type = IfType.extcap
    · rw [if_pos hx]
      have hfs1 : (match x.extcap_fifo with
          | some q => if q ∈ fs then fsRemove q fs else fs
          | none => fs) = fs := by
        cases hf : x.extcap_fifo with
        | none => rfl
        | some q =>
          show (if q ∈ fs then fsRemove q fs else fs) = fs
          rw [if_neg (h x (List.mem_cons_self x rest) hx q hf)]
      rw [hfs1]
      exact ih _ _ (fun e he => h e (List.mem_cons_of_mem x he))
    · rw [if_neg hx]
      exact ih _ _ (fun e he => h e (List.mem_cons_of_mem x he))

lemma extcap_cleanup_go_rel_indep (entries : List InterfaceOptions) :
    ∀ (fs fs2 : List String) (rel : List Int),
      (extcap_cleanup_go entries fs rel).2 = (extcap_cleanup_go entries fs2 rel).2 := by
  induction entries with
  | nil => intro fs fs2 rel; rfl
  | cons x rest ih =>
    intro fs fs2 rel
    rw [extcap_cleanup_go, extcap_cleanup_go]
    by_cases hx : x.if_type = IfType.extcap
    · rw [if_pos hx, if_pos hx]
      exact ih _ _ _
    · rw [if_neg hx, if_neg hx]
      exact ih _ _ _

lemma dlt_cb_reg (pd : String → List ExtcapDlt) :
    ∀ (ec out : String) (r : Option Registry) (s : DltState),
      (dlt_cb pd ec out r s).1 = r := by
  intro ec out r s
  rw [dlt_cb]
  by_cases h : pd out = []
  · rw [if_pos h]
  · rw [if_neg h]

lemma search_cb_reg {α : Type} (pa : String → List α) :
    ∀ (ec out : String) (r : Option Registry) (s : List (List α)),
      (search_cb pa ec out r s).1 = r :=
  fun _ _ _ _ => rfl

lemma extcap_if_cleanup_eq (ifc : Option Registry) : extcap_if_cleanup ifc = some [] := by
  cases ifc <;> rfl

lemma discovery_loop_drop_failed {dn : String} {sp : String → SpawnResult}
    {pi : String → List ExtcapInterface} {f : String}
    (hfail : ¬((sp (dn ++ "/" ++ f)).status = true ∧
      (sp (dn ++ "/" ++ f)).exitStatus = 0))
    (pre post : List String) :
    ∀ (reg : Option Registry) (il : List IfInfo) (t : List String),
      ((extcap_foreach_loop dn sp (interfaces_cb pi) none (pre ++ f :: post)
          ⟨reg, il, t⟩).ifaces =
        (extcap_foreach_loop dn sp (interfaces_cb pi) none (pre ++ post)
          ⟨reg, il, t⟩).ifaces) ∧
      ((extcap_foreach_loop dn sp (interfaces_cb pi) none (pre ++ f :: post)
          ⟨reg, il, t⟩).data =
        (extcap_foreach_loop dn sp (interfaces_cb pi) none (pre ++ post)
          ⟨reg, il, t⟩).data) := by
  induction pre with
  | nil =>
    intro reg il t
    simp only [List.nil_append]
    rw [extcap_foreach_loop, if_neg (by simp [extcap_if_exists]), if_neg hfail]
    constructor
    · rw [extcap_foreach_loop_shift post reg il (t ++ [dn ++ "/" ++ f]),
        extcap_foreach_loop_shift post reg il t]
    · rw [extcap_foreach_loop_shift post reg il (t ++ [dn ++ "/" ++ f]),
        extcap_foreach_loop_shift post reg il t]
  | cons x xs ih =>
    intro reg il t
    simp only [List.cons_append]
    by_cases hs : (sp (dn ++ "/" ++ x)).status = true ∧
        (sp (dn ++ "/" ++ x)).exitStatus = 0
    · have hstep : ∀ rest : List String,
          extcap_foreach_loop dn sp (interfaces_cb pi) none (x :: rest) ⟨reg, il, t⟩ =
          extcap_foreach_loop dn sp (interfaces_cb pi) none rest
            ⟨(interfaces_cb pi (dn ++ "/" ++ x) (sp (dn ++ "/" ++ x)).output reg il).1,
             (interfaces_cb pi (dn ++ "/" ++ x) (sp (dn ++ "/" ++ x)).output reg il).2.1,
             t ++ [dn ++ "/" ++ x]⟩ := by
        intro rest
        rw [extcap_foreach_loop, if_neg (by simp [extcap_if_exists]), if_pos hs,
          if_pos (show (interfaces_cb pi (dn ++ "/" ++ x)
            (sp (dn ++ "/" ++ x)).output reg il).2.2 = true from rfl)]
      rw [hstep, hstep]
      exact ih _ _ _
    · have hstep : ∀ rest : List String,
          extcap_foreach_loop dn sp (interfaces_cb pi) none (x :: rest) ⟨reg, il, t⟩ =
          extcap_foreach_loop dn sp (interfaces_cb pi) none rest
            ⟨reg, il, t ++ [dn ++ "/" ++ x]⟩ := by
        intro rest
        rw [extcap_foreach_loop, if_neg (by simp [extcap_if_exists]), if_neg hs]
      rw [hstep, hstep]
      exact ih _ _ _

/-! Claim theorems. -/

/-- C10: for a NULL interface name every public query is safe and inert:
extcap_if_exists returns FALSE, extcap_get_if_dlts returns NULL leaving
the caller err slot untouched, and extcap_get_if_configuration returns
the empty list; neither query spawns any helper process, for every state
of the registry including the never allocated (NULL) one. -/
theorem c10_null_ifname_inert {α : Type} (dirOpen : Option (List String)) (dn : String)
    (sp : String → SpawnResult) (pd : String → List ExtcapDlt) (pa : String → List α)
    (err0 : Option (Option String)) (ifaces : Option Registry) :
    extcap_if_exists ifaces none = false ∧
    extcap_get_if_dlts dirOpen dn sp pd none err0 ifaces = ⟨none, err0, []⟩ ∧
    extcap_get_if_configuration dirOpen dn sp pa none ifaces = ⟨[], []⟩ := by
  refine ⟨rfl, ?_, ?_⟩
  · cases err0 <;> simp [extcap_get_if_dlts, extcap_if_exists]
  · simp [extcap_get_if_configuration, extcap_if_exists]

/-- C3: for a name not present in the interface registry the DLT query
returns NULL and the configuration query returns the empty list, and
neither spawns any helper process. -/
theorem c3_unregistered_name_inert {α : Type} (dirOpen : Option (List String))
    (dn : String) (sp : String → SpawnResult) (pd : String → List ExtcapDlt)
    (pa : String → List α) (name : String) (err0 : Option (Option String))
    (ifaces : Option Registry) (h : registry_lookup ifaces name = none) :
    (extcap_get_if_dlts dirOpen dn sp pd (some name) err0 ifaces).caps = none ∧
    (extcap_get_if_dlts dirOpen dn sp pd (some name) err0 ifaces).spawned = [] ∧
    (extcap_get_if_configuration dirOpen dn sp pa (some name) ifaces).ret = [] ∧
    (extcap_get_if_configuration dirOpen dn sp pa (some name) ifaces).spawned = [] := by
  have hex : extcap_if_exists ifaces (some name) = false := by
    cases ifaces with
    | none => rfl
    | some t =>
      simp only [registry_lookup] at h
      simp [extcap_if_exists, h]
  refine ⟨?_, ?_, ?_, ?_⟩ <;>
    simp [extcap_get_if_dlts, extcap_get_if_configuration, hex]

/-- Witness for C3 at a concrete unregistered name. -/
theorem c3_unregistered_name_inert_witness :
    (extcap_get_if_dlts (some ["h1"]) "/d" (fun _ => ⟨true, 0, ""⟩) (fun _ => [])
      (some "x") none (some [("y", "/d/h1")])).caps = none ∧
    (extcap_get_if_dlts (some ["h1"]) "/d" (fun _ => ⟨true, 0, ""⟩) (fun _ => [])
      (some "x") none (some [("y", "/d/h1")])).spawned = [] ∧
    (extcap_get_if_configuration (some ["h1"]) "/d" (fun _ => ⟨true, 0, ""⟩)
      (fun _ => ([] : List Nat)) (some "x") (some [("y", "/d/h1")])).ret = [] ∧
    (extcap_get_if_configuration (some ["h1"]) "/d" (fun _ => ⟨true, 0, ""⟩)
      (fun _ => ([] : List Nat)) (some "x") (some [("y", "/d/h1")])).spawned = [] :=
  c3_unregistered_name_inert (some ["h1"]) "/d" (fun _ => ⟨true, 0, ""⟩) (fun _ => [])
    (fun _ => ([] : List Nat)) "x" none (some [("y", "/d/h1")]) (by decide)

/-- C1 (code bug evidence): with create_tempfile succeeding (descriptor 3)
but mkfifo failing, extcap_create_pipe returns TRUE, leaves the fifo out
parameter unwritten and creates no fifo on disk.  The claim (and the
comment above extcaps_init_initerfaces, which promises a FALSE return on
an error creating a FIFO) requires a FALSE return here. -/
theorem c1_mkfifo_failure_not_reported :
    (extcap_create_pipe ⟨3, "/tmp/wireshark_extcap_X", false⟩).ok = true ∧
    (extcap_create_pipe ⟨3, "/tmp/wireshark_extcap_X", false⟩).fifo = none ∧
    extcap_create_pipe_fs ⟨3, "/tmp/wireshark_extcap_X", false⟩ [] = [] := by
  refine ⟨?_, ?_, ?_⟩ <;> decide

/-- C6 (code bug evidence): cleaning up a session whose single helper
backed entry has pid 7 releases the process handle for pid 7, yet the
entry stored in the session still carries pid 7 afterwards: the invalid
sentinel was assigned only to the local by value copy of the entry, so
the stored identifier is never set to -1 as the claim requires. -/
theorem c6_cleanup_pid_not_stored :
    (extcap_cleanup [⟨IfType.extcap, "i1", "/d/h1", some "/tmp/f1", 7, []⟩]
        ["/tmp/f1"]).released = [7] ∧
    (extcap_cleanup [⟨IfType.extcap, "i1", "/d/h1", some "/tmp/f1", 7, []⟩]
        ["/tmp/f1"]).entries =
      [⟨IfType.extcap, "i1", "/d/h1", some "/tmp/f1", 7, []⟩] ∧
    (7 : Int) ≠ -1 := by
  refine ⟨?_, ?_, ?_⟩ <;> decide

/-- C7: session teardown is idempotent: running extcap_cleanup a second
time on the state the first run left behind changes nothing (same
entries, same filesystem, same released handles; the operation is a total
function with no error output), and already after the first run no helper
backed entry of the session has its channel file on disk. -/
theorem c7_cleanup_idempotent (entries : List InterfaceOptions) (fs : List String) :
    extcap_cleanup (extcap_cleanup entries fs).entries (extcap_cleanup entries fs).fs =
      extcap_cleanup entries fs ∧
    ∀ e ∈ entries, e.if_type = IfType.extcap → ∀ p, e.extcap_fifo = some p →
      p ∉ (extcap_cleanup entries fs).fs := by
  have hrem : ∀ e ∈ entries, e.if_type = IfType.extcap → ∀ p, e.extcap_fifo = some p →
      p ∉ (extcap_cleanup_go entries fs []).1 :=
    fun e he ht p hp => extcap_cleanup_go_fifo_removed entries fs [] he ht hp
  constructor
  · simp only [extcap_cleanup]
    rw [extcap_cleanup_go_fs_fixed entries _ [] hrem,
      extcap_cleanup_go_rel_indep entries ((extcap_cleanup_go entries fs []).1) fs []]
  · exact hrem

/-- Witness for C7 on a concrete one entry session. -/
theorem c7_cleanup_idempotent_witness :
    (extcap_cleanup
        (extcap_cleanup [⟨IfType.extcap, "i1", "/d/h1", some "/tmp/f1", 7, []⟩]
          ["/tmp/f1", "/other"]).entries
        (extcap_cleanup [⟨IfType.extcap, "i1", "/d/h1", some "/tmp/f1", 7, []⟩]
          ["/tmp/f1", "/other"]).fs =
      extcap_cleanup [⟨IfType.extcap, "i1", "/d/h1", some "/tmp/f1", 7, []⟩]
        ["/tmp/f1", "/other"]) ∧
    "/tmp/f1" ∉ (extcap_cleanup [⟨IfType.extcap, "i1", "/d/h1", some "/tmp/f1", 7, []⟩]
        ["/tmp/f1", "/other"]).fs :=
  have h := c7_cleanup_idempotent [⟨IfType.extcap, "i1", "/d/h1", some "/tmp/f1", 7, []⟩]
    ["/tmp/f1", "/other"]
  ⟨h.1, h.2 ⟨IfType.extcap, "i1", "/d/h1", some "/tmp/f1", 7, []⟩
    (List.mem_cons_self _ _) rfl "/tmp/f1" rfl⟩

/-- C5: when channel creation fails (a FALSE return of extcap_create_pipe)
for a helper backed entry during session initialization, the whole call
returns FALSE at once, the failing entry and all later entries are left
untouched, and the channels already created for the earlier entries stay
on the filesystem: the final filesystem is exactly the one produced by the
successfully processed earlier entries (the failing call, a create_tempfile
failure, has no filesystem effect), nothing is rolled back. -/
theorem c5_init_abort_no_rollback (pipeEnv : Nat → PipeEnv) (spawnPid : Nat → Int)
    (pre post : List InterfaceOptions) (e : InterfaceOptions) (fs0 : List String)
    (he : e.if_type = IfType.extcap)
    (hok : ∀ j, j < extcap_entry_count pre →
      (extcap_create_pipe (pipeEnv j)).ok = true)
    (hfail : (extcap_create_pipe (pipeEnv (extcap_entry_count pre))).ok = false) :
    (extcaps_init_initerfaces pipeEnv spawnPid pre fs0).ok = true ∧
    extcaps_init_initerfaces pipeEnv spawnPid (pre ++ e :: post) fs0 =
      ⟨false, (extcaps_init_initerfaces pipeEnv spawnPid pre fs0).entries ++ e :: post,
        (extcaps_init_initerfaces pipeEnv spawnPid pre fs0).fs⟩ ∧
    ∀ p ∈ (extcaps_init_initerfaces pipeEnv spawnPid pre fs0).fs,
      p ∈ (extcaps_init_initerfaces pipeEnv spawnPid (pre ++ e :: post) fs0).fs := by
  have hmain := extcaps_init_go_fail pipeEnv spawnPid e post he pre 0 [] fs0
    (fun j hj => by rw [Nat.zero_add]; exact hok j hj)
    (by rw [Nat.zero_add]; exact hfail)
  refine ⟨hmain.2, hmain.1, ?_⟩
  intro p hp
  have h2 : extcaps_init_initerfaces pipeEnv spawnPid (pre ++ e :: post) fs0 =
      ⟨false, (extcaps_init_initerfaces pipeEnv spawnPid pre fs0).entries ++ e :: post,
        (extcaps_init_initerfaces pipeEnv spawnPid pre fs0).fs⟩ := hmain.1
  rw [h2]
  exact hp

/-- Witness for C5: the first helper backed entry fails channel creation. -/
theorem c5_init_abort_no_rollback_witness :
    (extcaps_init_initerfaces (fun _ => ⟨0, "t", true⟩) (fun _ => 9) [] ["/x"]).ok
      = true ∧
    extcaps_init_initerfaces (fun _ => ⟨0, "t", true⟩) (fun _ => 9)
        ([] ++ ⟨IfType.extcap, "i1", "/d/h1", none, -1, []⟩ :: []) ["/x"] =
      ⟨false,
       (extcaps_init_initerfaces (fun _ => ⟨0, "t", true⟩) (fun _ => 9)
         [] ["/x"]).entries ++ ⟨IfType.extcap, "i1", "/d/h1", none, -1, []⟩ :: [],
       (extcaps_init_initerfaces (fun _ => ⟨0, "t", true⟩) (fun _ => 9)
         [] ["/x"]).fs⟩ :=
  have h := c5_init_abort_no_rollback (fun _ => ⟨0, "t", true⟩) (fun _ => 9) [] []
    ⟨IfType.extcap, "i1", "/d/h1", none, -1, []⟩ ["/x"] rfl
    (fun j hj => absurd hj (Nat.not_lt_zero j)) (by decide)
  ⟨h.1, h.2.1⟩

/-- C4: the registry is cleared at the start of every discovery pass
(extcap_if_cleanup yields the empty allocated table no matter what was
there, and extcap_interface_list installs exactly that before iterating);
within a pass a candidate whose name is already present is skipped by
interfaces_cb_go with the registry and the record list both unchanged;
extcap_if_add, the only insertion operation, never overwrites an existing
mapping; and a mapping present in the registry survives the remainder of
the discovery pass unchanged. -/
theorem c4_registry_first_wins (ifaces0 : Option Registry) (reg : Registry)
    (n p nn qq ec dn : String) (i : ExtcapInterface) (rest : List ExtcapInterface)
    (il : List IfInfo) (sp : String → SpawnResult) (pi : String → List ExtcapInterface)
    (fs : List String) (il0 : List IfInfo) (t0 : List String)
    (hn : g_hash_table_lookup reg n = some p)
    (hc : (g_hash_table_lookup reg i.call).isSome = true) :
    extcap_if_cleanup ifaces0 = some [] ∧
    g_hash_table_lookup (extcap_if_add reg nn qq) n = some p ∧
    interfaces_cb_go ec (i :: rest) reg il = interfaces_cb_go ec rest reg il ∧
    registry_lookup (extcap_foreach_loop dn sp (interfaces_cb pi) none fs
      ⟨some reg, il0, t0⟩).ifaces n = some p := by
  refine ⟨extcap_if_cleanup_eq ifaces0, extcap_if_add_lookup_preserve nn qq hn, ?_, ?_⟩
  · have hex : extcap_if_exists (some reg) (some i.call) = true := by
      cases hsome : g_hash_table_lookup reg i.call with
      | none => rw [hsome] at hc; exact absurd hc (by simp)
      | some q => exact extcap_if_exists_of_lookup hsome
    rw [interfaces_cb_go, if_pos hex]
  · exact discovery_loop_lookup_preserve fs reg il0 t0 hn

/-- Witness for C4 on a concrete registry holding eth owned by /d/h1. -/
theorem c4_registry_first_wins_witness :
    extcap_if_cleanup none = some [] ∧
    g_hash_table_lookup (extcap_if_add [("eth", "/d/h1")] "eth" "/d/h2") "eth"
      = some "/d/h1" ∧
    interfaces_cb_go "/d/h2" (⟨"eth", "E"⟩ :: []) [("eth", "/d/h1")] [] =
      interfaces_cb_go "/d/h2" [] [("eth", "/d/h1")] [] ∧
    registry_lookup (extcap_foreach_loop "/d" (fun _ => ⟨true, 0, ""⟩)
      (interfaces_cb (fun _ => [])) none ["h2"] ⟨some [("eth", "/d/h1")], [], []⟩).ifaces
      "eth" = some "/d/h1" :=
  c4_registry_first_wins none [("eth", "/d/h1")] "eth" "/d/h1" "eth" "/d/h2" "/d/h2"
    "/d" ⟨"eth", "E"⟩ [] [] (fun _ => ⟨true, 0, ""⟩) (fun _ => []) ["h2"] [] []
    (by decide) (by decide)

/-- C8: a discovery candidate whose invocation fails to spawn or exits
with a nonzero code contributes nothing: its iteration step leaves the
registry and the record list untouched apart from recording the spawn
attempt and continues with the next directory entry, and a whole
discovery pass returns exactly the records and the registry of a pass
over the directory without that candidate. -/
theorem c8_failed_probe_contributes_nothing (dn : String) (sp : String → SpawnResult)
    (pi : String → List ExtcapInterface) (f : String) (pre post : List String)
    (err0 : Option (Option String)) (ifc0 : Option Registry)
    (st : ForeachState (List IfInfo))
    (hfail : ¬((sp (dn ++ "/" ++ f)).status = true ∧
      (sp (dn ++ "/" ++ f)).exitStatus = 0)) :
    extcap_foreach_loop dn sp (interfaces_cb pi) none (f :: post) st =
      extcap_foreach_loop dn sp (interfaces_cb pi) none post
        ⟨st.ifaces, st.data, st.spawned ++ [dn ++ "/" ++ f]⟩ ∧
    (extcap_interface_list (some (pre ++ f :: post)) dn sp pi err0 ifc0).records =
      (extcap_interface_list (some (pre ++ post)) dn sp pi err0 ifc0).records ∧
    (extcap_interface_list (some (pre ++ f :: post)) dn sp pi err0 ifc0).registry =
      (extcap_interface_list (some (pre ++ post)) dn sp pi err0 ifc0).registry := by
  have h := @discovery_loop_drop_failed dn sp pi f hfail pre post
    (extcap_if_cleanup ifc0) [] []
  refine ⟨?_, ?_, ?_⟩
  · cases st with
    | mk reg il t =>
      rw [extcap_foreach_loop, if_neg (by simp [extcap_if_exists]), if_neg hfail]
  · simp only [extcap_interface_list, extcap_foreach]
    exact h.2
  · simp only [extcap_interface_list, extcap_foreach]
    exact h.1

/-- Witness for C8: a candidate that exits with status 1 contributes
nothing to a concrete discovery pass. -/
theorem c8_failed_probe_contributes_nothing_witness :
    (extcap_foreach_loop "/d" (fun _ => ⟨true, 1, ""⟩)
        (interfaces_cb (fun _ => [⟨"eth", "E"⟩])) none ("bad" :: ["good"])
        ⟨some [], [], []⟩ =
      extcap_foreach_loop "/d" (fun _ => ⟨true, 1, ""⟩)
        (interfaces_cb (fun _ => [⟨"eth", "E"⟩])) none ["good"]
        ⟨some [], [], [] ++ ["/d" ++ "/" ++ "bad"]⟩) ∧
    (extcap_interface_list (some ([] ++ "bad" :: ["good"])) "/d"
        (fun _ => ⟨true, 1, ""⟩) (fun _ => [⟨"eth", "E"⟩]) none none).records =
      (extcap_interface_list (some ([] ++ ["good"])) "/d"
        (fun _ => ⟨true, 1, ""⟩) (fun _ => [⟨"eth", "E"⟩]) none none).records ∧
    (extcap_interface_list (some ([] ++ "bad" :: ["good"])) "/d"
        (fun _ => ⟨true, 1, ""⟩) (fun _ => [⟨"eth", "E"⟩]) none none).registry =
      (extcap_interface_list (some ([] ++ ["good"])) "/d"
        (fun _ => ⟨true, 1, ""⟩) (fun _ => [⟨"eth", "E"⟩]) none none).registry :=
  c8_failed_probe_contributes_nothing "/d" (fun _ => ⟨true, 1, ""⟩)
    (fun _ => [⟨"eth", "E"⟩]) "bad" [] ["good"] none none ⟨some [], [], []⟩
    (by decide)

lemma extcap_foreach_loop_query_spawned {σ : Type} {dn : String} {sp : String → SpawnResult}
    {cb : String → String → Option Registry → σ → Option Registry × σ × Bool}
    {reg : Registry} {name owner : String} (pre post : List String) (f0 : String)
    (hcb : ∀ ec out r s, (cb ec out r s).1 = r)
    (hlk : g_hash_table_lookup reg name = some owner)
    (hpre : ∀ f ∈ pre, dn ++ "/" ++ f ≠ owner)
    (hf0 : dn ++ "/" ++ f0 = owner)
    (hpost : ∀ f ∈ post, dn ++ "/" ++ f ≠ owner)
    (s : σ) (t : List String) :
    (extcap_foreach_loop dn sp cb (some name) (pre ++ f0 :: post)
      ⟨some reg, s, t⟩).spawned = t ++ [owner] := by
  rw [extcap_foreach_loop_query_run pre post f0 hcb hlk hpre hf0 hpost s t]
  by_cases hs : (sp owner).status = true ∧ (sp owner).exitStatus = 0
  · rw [if_pos hs]
  · rw [if_neg hs]

lemma registry_owner_split (files : List String) (dn : String)
    (spawnD : String → SpawnResult) (pi : String → List ExtcapInterface)
    (err0 : Option (Option String)) (ifc0 : Option Registry) (reg : Registry)
    (name owner : String) (hnd : files.Nodup)
    (hreg : (extcap_interface_list (some files) dn spawnD pi err0 ifc0).registry
      = some reg)
    (hlk : g_hash_table_lookup reg name = some owner) :
    ∃ pre f0 post, files = pre ++ f0 :: post ∧ dn ++ "/" ++ f0 = owner ∧
      (∀ f ∈ pre, dn ++ "/" ++ f ≠ owner) ∧ (∀ f ∈ post, dn ++ "/" ++ f ≠ owner) := by
  have hmem : (name, owner) ∈ reg := g_hash_table_lookup_mem hlk
  have hreg2 : (extcap_foreach_loop dn spawnD (interfaces_cb pi) none files
      ⟨some [], [], []⟩).ifaces = some reg := by
    have h0 := hreg
    simp only [extcap_interface_list, extcap_foreach, extcap_if_cleanup_eq] at h0
    exact h0
  have hprov := discovery_loop_reg_mem files [] [] [] (by rw [hreg2]; exact hmem)
  rcases hprov with hin | ⟨f0, hf0mem, hp⟩
  · exact absurd hin (List.not_mem_nil _)
  · obtain ⟨pre, post, hsplit⟩ := List.append_of_mem hf0mem
    rw [hsplit] at hnd
    rcases List.nodup_append.mp hnd with ⟨hnp, hncons, hdisj⟩
    have hf0pre : f0 ∉ pre := fun hf => hdisj hf (List.mem_cons_self _ _)
    have hf0post : f0 ∉ post := (List.nodup_cons.mp hncons).1
    refine ⟨pre, f0, post, hsplit, hp.symm, ?_, ?_⟩
    · intro f hf he
      rw [hp] at he
      exact hf0pre (extcap_path_inj he ▸ hf)
    · intro f hf he
      rw [hp] at he
      exact hf0post (extcap_path_inj he ▸ hf)

/-- C2: for a capability query (DLT list or configuration) on a name that
a discovery pass over the directory registered, exactly one helper is
spawned during the query, and it is the executable recorded in the
registry as the owner of that name; no other helper in the directory is
invoked. -/
theorem c2_query_spawns_owner_only {α : Type} (dn : String) (files : List String)
    (spawnD spawnQ : String → SpawnResult) (pi : String → List ExtcapInterface)
    (pd : String → List ExtcapDlt) (pa : String → List α)
    (name owner : String) (err0 errq : Option (Option String)) (ifc0 : Option Registry)
    (reg : Registry) (hnd : files.Nodup)
    (hreg : (extcap_interface_list (some files) dn spawnD pi err0 ifc0).registry
      = some reg)
    (hlk : g_hash_table_lookup reg name = some owner) :
    (extcap_get_if_dlts (some files) dn spawnQ pd (some name) errq (some reg)).spawned
      = [owner] ∧
    (extcap_get_if_configuration (some files) dn spawnQ pa (some name)
      (some reg)).spawned = [owner] := by
  obtain ⟨pre, f0, post, hsplit, hf0, hpre, hpost⟩ :=
    registry_owner_split files dn spawnD pi err0 ifc0 reg name owner hnd hreg hlk
  have hex : extcap_if_exists (some reg) (some name) = true :=
    extcap_if_exists_of_lookup hlk
  subst hsplit
  constructor
  · simp only [extcap_get_if_dlts, extcap_foreach]
    rw [if_pos hex]
    simpa using extcap_foreach_loop_query_spawned pre post f0 (dlt_cb_reg pd) hlk
      hpre hf0 hpost _ []
  · simp only [extcap_get_if_configuration, extcap_foreach]
    rw [if_pos hex]
    simpa using extcap_foreach_loop_query_spawned pre post f0 (search_cb_reg pa) hlk
      hpre hf0 hpost _ []

/-- Witness for C2: one helper directory entry h1 advertising eth; both
queries for eth spawn exactly /d/h1. -/
theorem c2_query_spawns_owner_only_witness :
    (extcap_get_if_dlts (some ["h1"]) "/d" (fun _ => ⟨true, 0, "o"⟩) (fun _ => [])
      (some "eth") none (some [("eth", "/d/h1")])).spawned = ["/d/h1"] ∧
    (extcap_get_if_configuration (some ["h1"]) "/d" (fun _ => ⟨true, 0, "o"⟩)
      (fun _ => ([] : List Nat)) (some "eth") (some [("eth", "/d/h1")])).spawned
      = ["/d/h1"] :=
  c2_query_spawns_owner_only "/d" ["h1"] (fun _ => ⟨true, 0, ""⟩)
    (fun _ => ⟨true, 0, "o"⟩) (fun _ => [⟨"eth", "E"⟩]) (fun _ => [])
    (fun _ => ([] : List Nat)) "eth" "/d/h1" none none none [("eth", "/d/h1")]
    (by decide) (by decide) (by decide)

lemma extcap_foreach_loop_query_data {σ : Type} {dn : String} {sp : String → SpawnResult}
    {cb : String → String → Option Registry → σ → Option Registry × σ × Bool}
    {reg : Registry} {name owner : String} (pre post : List String) (f0 : String)
    (hcb : ∀ ec out r s, (cb ec out r s).1 = r)
    (hlk : g_hash_table_lookup reg name = some owner)
    (hpre : ∀ f ∈ pre, dn ++ "/" ++ f ≠ owner)
    (hf0 : dn ++ "/" ++ f0 = owner)
    (hpost : ∀ f ∈ post, dn ++ "/" ++ f ≠ owner)
    (s : σ) (t : List String)
    (hs : (sp owner).status = true ∧ (sp owner).exitStatus = 0) :
    (extcap_foreach_loop dn sp cb (some name) (pre ++ f0 :: post)
      ⟨some reg, s, t⟩).data = (cb owner (sp owner).output (some reg) s).2.1 := by
  rw [extcap_foreach_loop_query_run pre post f0 hcb hlk hpre hf0 hpost s t, if_pos hs]

/-- C9 counterexample: a registered interface whose owning helper runs
successfully but whose output parses to zero configuration records.  The
query returns a one element list holding the empty record list; this is
not the empty or error result, and the function has no other channel to
the caller, so no descriptive failure is reported, contrary to the claim
that both query variants report one. -/
theorem c9_config_no_failure_reported :
    (extcap_get_if_configuration (some ["h1"]) "/d" (fun _ => ⟨true, 0, "garbage"⟩)
      (fun _ => ([] : List Nat)) (some "eth") (some [("eth", "/d/h1")])).ret
      = [[]] ∧
    ¬ config_query_error_indication
      (extcap_get_if_configuration (some ["h1"]) "/d" (fun _ => ⟨true, 0, "garbage"⟩)
        (fun _ => ([] : List Nat)) (some "eth") (some [("eth", "/d/h1")])) := by
  have h : (extcap_get_if_configuration (some ["h1"]) "/d"
      (fun _ => ⟨true, 0, "garbage"⟩) (fun _ => ([] : List Nat)) (some "eth")
      (some [("eth", "/d/h1")])).ret = [[]] := by decide
  refine ⟨h, fun hc => ?_⟩
  rw [config_query_error_indication, h] at hc
  exact List.noConfusion hc

/-- C9 amended: when the owning helper runs successfully but its output
parses to zero records, extcap_get_if_dlts reports a descriptive failure
(NULL capabilities, and the err slot, when the caller provided one, set
to the message Extcap returned no DLTs), while extcap_get_if_configuration
reports no failure indication at all: it returns a one element list
holding the empty record list, and its signature carries no error
channel.  Neither variant crashes: both are total functions here. -/
theorem c9_zero_record_reporting {α : Type} (dn : String) (files : List String)
    (spawnD spawnQ : String → SpawnResult) (pi : String → List ExtcapInterface)
    (pd : String → List ExtcapDlt) (pa : String → List α)
    (name owner : String) (e0 : Option String) (err0 : Option (Option String))
    (ifc0 : Option Registry) (reg : Registry) (hnd : files.Nodup)
    (hreg : (extcap_interface_list (some files) dn spawnD pi err0 ifc0).registry
      = some reg)
    (hlk : g_hash_table_lookup reg name = some owner)
    (hspawn : (spawnQ owner).status = true ∧ (spawnQ owner).exitStatus = 0)
    (hpd : pd (spawnQ owner).output = [])
    (hpa : pa (spawnQ owner).output = []) :
    (extcap_get_if_dlts (some files) dn spawnQ pd (some name) (some e0)
      (some reg)).caps = none ∧
    (extcap_get_if_dlts (some files) dn spawnQ pd (some name) (some e0)
      (some reg)).err = some (some "Extcap returned no DLTs") ∧
    (extcap_get_if_configuration (some files) dn spawnQ pa (some name)
      (some reg)).ret = [[]] ∧
    ¬ config_query_error_indication
      (extcap_get_if_configuration (some files) dn spawnQ pa (some name)
        (some reg)) := by
  obtain ⟨pre, f0, post, hsplit, hf0, hpre, hpost⟩ :=
    registry_owner_split files dn spawnD pi err0 ifc0 reg name owner hnd hreg hlk
  have hex : extcap_if_exists (some reg) (some name) = true :=
    extcap_if_exists_of_lookup hlk
  subst hsplit
  have hdlt := extcap_foreach_loop_query_data pre post f0 (dlt_cb_reg pd) hlk hpre
    hf0 hpost (⟨none, some none⟩ : DltState) [] hspawn
  rw [dlt_cb, if_pos hpd] at hdlt
  have hcfg := extcap_foreach_loop_query_data pre post f0 (search_cb_reg pa) hlk hpre
    hf0 hpost ([] : List (List α)) [] hspawn
  rw [search_cb, hpa] at hcfg
  refine ⟨?_, ?_, ?_, fun hc => ?_⟩
  · simp only [extcap_get_if_dlts, extcap_foreach]
    rw [if_pos hex]
    simp [hdlt]
  · simp only [extcap_get_if_dlts, extcap_foreach]
    rw [if_pos hex]
    simp [hdlt]
  · simp only [extcap_get_if_configuration, extcap_foreach]
    rw [if_pos hex]
    simp [hcfg]
  · rw [config_query_error_indication] at hc
    simp only [extcap_get_if_configuration, extcap_foreach] at hc
    rw [if_pos hex] at hc
    simp [hcfg] at hc

/-- Witness for the amended C9 on a concrete discovery and query. -/
theorem c9_zero_record_reporting_witness :
    (extcap_get_if_dlts (some ["h1"]) "/d" (fun _ => ⟨true, 0, "garbage"⟩)
      (fun _ => []) (some "eth") (some none) (some [("eth", "/d/h1")])).caps
      = none ∧
    (extcap_get_if_dlts (some ["h1"]) "/d" (fun _ => ⟨true, 0, "garbage"⟩)
      (fun _ => []) (some "eth") (some none) (some [("eth", "/d/h1")])).err
      = some (some "Extcap returned no DLTs") ∧
    (extcap_get_if_configuration (some ["h1"]) "/d" (fun _ => ⟨true, 0, "garbage"⟩)
      (fun _ => ([] : List Nat)) (some "eth") (some [("eth", "/d/h1")])).ret
      = [[]] ∧
    ¬ config_query_error_indication
      (extcap_get_if_configuration (some ["h1"]) "/d" (fun _ => ⟨true, 0, "garbage"⟩)
        (fun _ => ([] : List Nat)) (some "eth") (some [("eth", "/d/h1")])) :=
  c9_zero_record_reporting "/d" ["h1"] (fun _ => ⟨true, 0, ""⟩)
    (fun _ => ⟨true, 0, "garbage"⟩) (fun _ => [⟨"eth", "E"⟩]) (fun _ => [])
    (fun _ => ([] : List Nat)) "eth" "/d/h1" none none none [("eth", "/d/h1")]
    (by decide) (by decide) (by decide) (by decide) (by decide) (by decide)
